import Mathlib

/-!
# Verification of the prisma datamodel validator and converter

Shallow embedding of `libs/datamodel/src/dml/validator/validate.rs`,
`libs/datamodel/src/dml/validator/directive/core/embedded.rs`, and of the
spec-described DML→IDM relation conversion, together with theorems settling
the claims about them.
-/

set_option maxRecDepth 4000

namespace Prisma

/-- Decidable equality for `Except`, needed to decide validator results. -/
instance {ε α : Type} [DecidableEq ε] [DecidableEq α] : DecidableEq (Except ε α) := fun a b =>
  match a, b with
  | Except.ok x, Except.ok y =>
    if h : x = y then isTrue (by rw [h]) else isFalse (by intro hc; cases hc; exact h rfl)
  | Except.error x, Except.error y =>
    if h : x = y then isTrue (by rw [h]) else isFalse (by intro hc; cases hc; exact h rfl)
  | Except.ok _, Except.error _ => isFalse (by intro hc; cases hc)
  | Except.error _, Except.ok _ => isFalse (by intro hc; cases hc)

/-- Lexicographic comparison of character lists, by character code. -/
def charListLe : List Char → List Char → Bool
  | [], _ => true
  | _ :: _, [] => false
  | a :: as, b :: bs =>
    if a < b then true
    else if b < a then false
    else charListLe as bs

/-- Lexicographic order on strings, by character code; the order used for
sorting model names when deriving relation names and assigning sides. -/
def lexLe (s t : String) : Bool :=
  charListLe s.data t.data

/-- A source span, a pair of byte offsets (the AST `Span { start, end }`). -/
structure Span where
  start : Nat
  stop : Nat
deriving DecidableEq, Repr

/-- AST field: name plus span (the parts of `ast::Field` the validator reads). -/
structure AstField where
  name : String
  span : Span
deriving DecidableEq, Repr

/-- AST model: name, span and fields (the parts of `ast::Model` the validator reads). -/
structure AstModel where
  name : String
  span : Span
  fields : List AstField
deriving DecidableEq, Repr

/-- AST datamodel: an ordered list of models. -/
structure AstDatamodel where
  models : List AstModel
deriving DecidableEq, Repr

/-- Modelled from the spec: `ast::Datamodel::find_model` — look up a model
declaration by name (the `ast` module is not among the provided sources). -/
def AstDatamodel.find_model (s : AstDatamodel) (name : String) : Option AstModel :=
  s.models.find? (fun m => m.name == name)

/-- Modelled from the spec: `ast::Datamodel::find_field` — look up a field
declaration by model name and field name. -/
def AstDatamodel.find_field (s : AstDatamodel) (model field : String) : Option AstField :=
  (s.find_model model).bind (fun m => m.fields.find? (fun f => f.name == field))

/-- DML scalar types (`dml::ScalarType`). -/
inductive ScalarType where
  | int
  | float
  | boolean
  | string
  | dateTime
  | decimal
  | json
  | bytes
deriving DecidableEq, Repr

/-- DML field arity (`dml::FieldArity`). -/
inductive FieldArity where
  | required
  | optional
  | list
deriving DecidableEq, Repr

/-- Literal values appearing in defaults and expression arguments.
Modelled from the spec: values are string, integer, boolean or constant
literals (the `dml` module is not among the provided sources). -/
inductive Lit where
  | intLit (i : Int)
  | stringLit (s : String)
  | boolLit (b : Bool)
  | constLit (s : String)
deriving DecidableEq, Repr

/-- DML values (`dml::Value`): a literal, or an expression call such as
`cuid()` carrying a name, a return type and arguments. Modelled from the
spec: "optional `default_value` (literal or expression-call like `cuid()`,
`uuid()`, `now()`)". -/
inductive Value where
  | lit (l : Lit)
  | expression (name : String) (returnType : ScalarType) (args : List Lit)
deriving DecidableEq, Repr

/-- Relation `onDelete` policy; the default is `NO ACTION`. -/
inductive OnDelete where
  | noAction
  | cascade
deriving DecidableEq, Repr

/-- DML relation info (`dml::RelationInfo`): peer model name, relation name,
referenced peer fields (empty ⇒ back-relation endpoint) and delete policy. -/
structure RelationInfo where
  «to» : String
  name : String
  to_fields : List String
  on_delete : OnDelete
deriving DecidableEq, Repr

/-- DML field type (`dml::FieldType`): base scalar, enum reference or relation. -/
inductive FieldType where
  | base (t : ScalarType)
  | enum (name : String)
  | relation (info : RelationInfo)
deriving DecidableEq, Repr

/-- DML field (`dml::Field`). -/
structure Field where
  name : String
  field_type : FieldType
  arity : FieldArity
  default_value : Option Value
  is_unique : Bool
  is_id : Bool
  is_generated : Bool
  is_updated_at : Bool
  database_name : Option String
deriving DecidableEq, Repr

/-- DML model (`dml::Model`). The derived predicate `is_relation_model`
(auto-detected relation tables) is defined outside the provided sources;
modelled from the spec as an abstract stored flag. -/
structure Model where
  name : String
  fields : List Field
  is_embedded : Bool
  is_relation_model : Bool
  database_name : Option String
deriving DecidableEq, Repr

/-- DML enum. -/
structure DmlEnum where
  name : String
  values : List String
deriving DecidableEq, Repr

/-- DML datamodel (`dml::Datamodel`). -/
structure Datamodel where
  models : List Model
  enums : List DmlEnum
deriving DecidableEq, Repr

/-- Modelled from the spec: `dml::Datamodel::find_model` — look up a model by name. -/
def Datamodel.find_model (s : Datamodel) (name : String) : Option Model :=
  s.models.find? (fun m => m.name == name)

/-- Modelled from the spec: `dml::Model::id_fields` — the fields flagged `is_id`. -/
def Model.id_fields (m : Model) : List Field :=
  m.fields.filter (fun f => f.is_id)

/-- Modelled from the spec: `dml::Model::related_field` — on the peer model,
locate the companion field: a field other than the one under inspection whose
type is a relation back to the given model under the same relation name. -/
def Model.related_field (m : Model) (from_model rel_name exclude : String) : Option Field :=
  m.fields.find? (fun f =>
    match f.field_type with
    | FieldType.relation r => r.«to» == from_model && r.name == rel_name && f.name != exclude
    | _ => false)

/-- Validation errors (the kinds of `errors::ValidationError` the validator emits). -/
inductive ValidationError where
  | modelValidationError (message : String) (model_name : String) (span : Span)
deriving DecidableEq, Repr

/-! ## The validator (`dml/validator/validate.rs`)

Failed `.expect(STATE_ERROR)` / `.unwrap()` lookups are Rust panics; panics
are modelled as `none` throughout, a normal result as `some`. -/

namespace Validator

/-- Error message of `validate_model_has_id`. -/
def exactlyOneIdMessage : String :=
  "Exactly one field must be marked as the id field with the `@id` directive."

/-- Error message of `validate_id_fields_valid`. -/
def idFieldErrorMessage : String :=
  "Invalid ID field. ID field must be one of: Int @id, String @id @default(cuid()), String @id @default(uuid())."

/-- Error message of the foreign branch of `validate_relations_not_ambiguous`. -/
def ambiguousRelationMessage : String := "Ambiguous relation detected."

/-- Error message of the self branch of `validate_relations_not_ambiguous`. -/
def ambiguousSelfRelationMessage : String := "Ambiguous self relation detected."

/-- Error message of `validate_embedded_types_have_no_back_relation`. -/
def embeddedBackRelationMessage : String :=
  "Embedded models cannot have back relation fields."

/-- Rust `Validator::validate_model_has_id`: relation models are exempt; otherwise
the count of id fields must be exactly one, else a model error at the model's span. -/
def validate_model_has_id (ast_model : AstModel) (model : Model) : Except ValidationError Unit :=
  if model.is_relation_model then
    Except.ok ()
  else
    match model.id_fields.length with
    | 1 => Except.ok ()
    | _ => Except.error (ValidationError.modelValidationError exactlyOneIdMessage model.name ast_model.span)

/-- The `is_valid` match of `validate_id_fields_valid`, on the triple
`(default_value, field_type, arity)`. -/
def id_field_shape_valid (f : Field) : Bool :=
  match f.default_value, f.field_type, f.arity with
  | some (Value.expression name return_type args), FieldType.base ScalarType.string, FieldArity.required =>
    let name_eq := name == "cuid" || name == "uuid"
    let type_eq := return_type == ScalarType.string
    let args_eq := args.isEmpty
    name_eq && type_eq && args_eq
  | none, FieldType.base ScalarType.int, FieldArity.required => true
  | _, _, _ => false

/-- The `for id_field in model.id_fields()` loop of `validate_id_fields_valid`:
the first invalid id field errors at the span found by AST field lookup. -/
def id_fields_loop (ast_schema : AstDatamodel) (model : Model) : List Field → Option (Except ValidationError Unit)
  | [] => some (Except.ok ())
  | f :: rest =>
    if id_field_shape_valid f then
      id_fields_loop ast_schema model rest
    else
      (ast_schema.find_field model.name f.name).map
        (fun af => Except.error (ValidationError.modelValidationError idFieldErrorMessage model.name af.span))

/-- Rust `Validator::validate_id_fields_valid`. -/
def validate_id_fields_valid (ast_schema : AstDatamodel) (model : Model) : Option (Except ValidationError Unit) :=
  id_fields_loop ast_schema model model.id_fields

/-- The `for field_c in model.fields()` scan of the self-relation branch of
`validate_relations_not_ambiguous`: is there a third distinct field whose
relation points back at the owning model under the same relation name? -/
def self_scan (model : Model) (field_a field_b : Field) (rel_a rel_b : RelationInfo) : Bool :=
  model.fields.any (fun field_c =>
    field_a != field_c && field_b != field_c &&
    (match field_c.field_type with
     | FieldType.relation rel_c =>
       rel_c.«to» == model.name && rel_a.name == rel_b.name && rel_a.name == rel_c.name
     | _ => false))

/-- Body of the two inner loops of `validate_relations_not_ambiguous` for one
ordered pair `(field_a, field_b)`: the error message raised at `field_a`'s
span, if any. The foreign branch fires when both relations point away from the
owning model and agree on `(to, name)`; the self branch runs `self_scan`. -/
def pair_check (model : Model) (field_a field_b : Field) : Option String :=
  if field_a != field_b then
    match field_a.field_type, field_b.field_type with
    | FieldType.relation rel_a, FieldType.relation rel_b =>
      if rel_a.«to» != model.name && rel_b.«to» != model.name then
        if rel_a.«to» == rel_b.«to» && rel_a.name == rel_b.name then
          some ambiguousRelationMessage
        else
          none
      else
        if self_scan model field_a field_b rel_a rel_b then
          some ambiguousSelfRelationMessage
        else
          none
    | _, _ => none
  else
    none

/-- The `for field_b in model.fields()` loop: first message raised for `field_a`. -/
def inner_scan (model : Model) (field_a : Field) : List Field → Option String
  | [] => none
  | field_b :: rest =>
    match pair_check model field_a field_b with
    | some msg => some msg
    | none => inner_scan model field_a rest

/-- The `for field_a in model.fields()` loop: the first field raising a message
produces the model error at that field's span (AST lookup may panic). -/
def outer_scan (ast_schema : AstDatamodel) (model : Model) : List Field → Option (Except ValidationError Unit)
  | [] => some (Except.ok ())
  | field_a :: rest =>
    match inner_scan model field_a model.fields with
    | some msg =>
      (ast_schema.find_field model.name field_a.name).map
        (fun af => Except.error (ValidationError.modelValidationError msg model.name af.span))
    | none => outer_scan ast_schema model rest

/-- Rust `Validator::validate_relations_not_ambiguous`. -/
def validate_relations_not_ambiguous (ast_schema : AstDatamodel) (model : Model) : Option (Except ValidationError Unit) :=
  outer_scan ast_schema model model.fields

/-- The `for field in model.fields()` loop of
`validate_embedded_types_have_no_back_relation`: non-generated relation fields
resolve the peer model and the companion field (both `.unwrap()` panics on
failure); empty `to_fields` with a non-generated companion rejects. -/
def embedded_fields_loop (ast_schema : AstDatamodel) (datamodel : Datamodel) (model : Model) :
    List Field → Option (Except ValidationError Unit)
  | [] => some (Except.ok ())
  | field :: rest =>
    if !field.is_generated then
      match field.field_type with
      | FieldType.relation rel => do
        let related ← datamodel.find_model rel.«to»
        let companion ← related.related_field model.name rel.name field.name
        if rel.to_fields.isEmpty && !companion.is_generated then
          (ast_schema.find_field model.name field.name).map
            (fun af => Except.error (ValidationError.modelValidationError embeddedBackRelationMessage model.name af.span))
        else
          embedded_fields_loop ast_schema datamodel model rest
      | _ => embedded_fields_loop ast_schema datamodel model rest
    else
      embedded_fields_loop ast_schema datamodel model rest

/-- Rust `Validator::validate_embedded_types_have_no_back_relation`. -/
def validate_embedded_types_have_no_back_relation (ast_schema : AstDatamodel) (datamodel : Datamodel) (model : Model) : Option (Except ValidationError Unit) :=
  if model.is_embedded then
    embedded_fields_loop ast_schema datamodel model model.fields
  else
    some (Except.ok ())

/-- The errors pushed for one check result. -/
def errList : Except ValidationError Unit → List ValidationError
  | Except.ok _ => []
  | Except.error e => [e]

/-- The body of the `for model in schema.models()` loop of `Validator::validate`:
the four checks run in order, each failure pushed into the collection (a
failed AST model lookup is the `expect(STATE_ERROR)` panic). -/
def model_errors (ast_schema : AstDatamodel) (schema : Datamodel) (model : Model) : Option (List ValidationError) :=
  match ast_schema.find_model model.name with
  | none => none
  | some ast_model =>
    match validate_id_fields_valid ast_schema model with
    | none => none
    | some r2 =>
      match validate_relations_not_ambiguous ast_schema model with
      | none => none
      | some r3 =>
        match validate_embedded_types_have_no_back_relation ast_schema schema model with
        | none => none
        | some r4 =>
          some (errList (validate_model_has_id ast_model model) ++
            errList r2 ++ errList r3 ++ errList r4)

/-- The model loop of `Validator::validate`, accumulating the error collection. -/
def models_loop (ast_schema : AstDatamodel) (schema : Datamodel) : List Model → Option (List ValidationError)
  | [] => some []
  | model :: rest =>
    match model_errors ast_schema schema model with
    | none => none
    | some here =>
      match models_loop ast_schema schema rest with
      | none => none
      | some there => some (here ++ there)

/-- Rust `Validator::validate`. The Rust method takes `schema: &mut dml::Datamodel`;
the mutable reference is modelled by returning the final datamodel alongside
the result. The collection is returned as `Err` iff it has errors. -/
def validate (ast_schema : AstDatamodel) (schema : Datamodel) :
    Option (Except (List ValidationError) Unit) × Datamodel :=
  (match models_loop ast_schema schema schema.models with
   | none => none
   | some errors => if errors.isEmpty then some (Except.ok ()) else some (Except.error errors)
   , schema)

end Validator

/-! ## The builtin `embedded` model directive
(`dml/validator/directive/core/embedded.rs`) -/

/-- AST directive, as produced by `ast::Directive::new(name, args)`. -/
structure AstDirective where
  name : String
  args : List Lit
deriving DecidableEq, Repr

namespace EmbeddedDirectiveValidator

/-- Rust `directive_name`. -/
def directive_name : String := "embedded"

/-- Rust `validate_and_apply`: sets the model's `is_embedded` flag and returns Ok.
The Rust method mutates `obj` through `&mut`; the mutation is modelled by
returning the updated model alongside the result. -/
def validate_and_apply (_args : List Lit) (obj : Model) : Except String Unit × Model :=
  (Except.ok (), { obj with is_embedded := true })

/-- Rust `serialize`: emits the directive iff the model carries the flag. -/
def serialize (model : Model) (_datamodel : Datamodel) : Except String (Option AstDirective) :=
  if model.is_embedded then
    Except.ok (some (AstDirective.mk directive_name []))
  else
    Except.ok none

end EmbeddedDirectiveValidator

/-! ## DML→IDM relation conversion and many-to-many manifestation

The converter (`prisma-models`) and migration engine sources are not among the
provided files — only their tests are; these definitions are modelled from the
spec (§3 IDM entities, §4.3 manifestation inference, §4.4 foreign key defaults). -/

/-- Modelled from the spec: the converter's relation-name derivation — "If the
user omitted the name, derive it as the two model names sorted lexicographically
joined by `To` (e.g., `BlogToPost`)". -/
def derive_relation_name (m n : String) : String :=
  if lexLe m n then m ++ "To" ++ n else n ++ "To" ++ m

/-- IDM relation: name and the two sides. -/
structure IdmRelation where
  name : String
  model_a : String
  model_b : String
deriving DecidableEq, Repr

/-- Modelled from the spec: the converter's side assignment for an unnamed
relation between two models — "Sides A and B are assigned so that
`model_a.name ≤ model_b.name` lexicographically", with the derived name. -/
def build_relation (m n : String) : IdmRelation :=
  if lexLe m n then
    { name := derive_relation_name m n, model_a := m, model_b := n }
  else
    { name := derive_relation_name m n, model_a := n, model_b := m }

/-- IDM relation manifestation: inline foreign key or join table. -/
inductive Manifestation where
  | inline (in_table_of_model_name : String) (referencing_column : String)
  | relationTable (table : String) (model_a_column : String) (model_b_column : String) (id_column : Option String)
deriving DecidableEq, Repr

/-- One side of a relation, as the manifestation inference consumes it:
owning model, field name, arity, whether `@relation(references: [...])` was
declared, and the `@map` column override. -/
structure RelSide where
  model : String
  field : String
  arity : FieldArity
  references_set : Bool
  map_override : Option String
deriving DecidableEq, Repr

/-- Modelled from the spec: manifestation inference (§4.3) — both sides `List`
⇒ relation table `_<name>` with columns `A`/`B`; otherwise inline on the
singular side (both singular: prefer the side declaring `references`, else the
model name sorting later), with the `@map` override or field name as column. -/
def infer_manifestation (rel_name : String) (a b : RelSide) : Manifestation :=
  if a.arity = FieldArity.list ∧ b.arity = FieldArity.list then
    Manifestation.relationTable ("_" ++ rel_name) "A" "B" none
  else if a.arity ≠ FieldArity.list ∧ b.arity ≠ FieldArity.list then
    let holder :=
      if a.references_set then a
      else if b.references_set then b
      else if lexLe a.model b.model then b else a
    Manifestation.inline holder.model (holder.map_override.getD holder.field)
  else
    let holder := if a.arity ≠ FieldArity.list then a else b
    Manifestation.inline holder.model (holder.map_override.getD holder.field)

/-- Physical column types reported by the database inspector. -/
inductive ColumnType where
  | int
  | float
  | boolean
  | string
  | dateTime
deriving DecidableEq, Repr

/-- A foreign key: referenced table, referenced column, delete action. -/
structure ForeignKey where
  table : String
  column : String
  on_delete : OnDelete
deriving DecidableEq, Repr

/-- A physical column: name, type, optional foreign key. -/
structure TableColumn where
  name : String
  tpe : ColumnType
  foreign_key : Option ForeignKey
deriving DecidableEq, Repr

/-- A physical table. -/
structure Table where
  name : String
  columns : List TableColumn
deriving DecidableEq, Repr

/-- Modelled from the spec: the migration engine's many-to-many join table —
`_<relation-name>` with exactly two columns `A` and `B` typed by the
respective models' id types, each a foreign key to that model's id column with
`ON DELETE NO ACTION` (§4.4, §6). -/
def relation_table_ddl (rel_name : String) (model_a model_b : String)
    (id_col_a id_col_b : String) (id_type_a id_type_b : ColumnType) : Table :=
  { name := "_" ++ rel_name
  , columns :=
      [ { name := "A", tpe := id_type_a
        , foreign_key := some { table := model_a, column := id_col_a, on_delete := OnDelete.noAction } }
      , { name := "B", tpe := id_type_b
        , foreign_key := some { table := model_b, column := id_col_b, on_delete := OnDelete.noAction } } ] }

/-! ## Concrete sample schemas used to instantiate the theorems -/

/-- A scalar field. -/
def mkScalarField (n : String) (t : ScalarType) (ar : FieldArity) (dv : Option Value) (isId : Bool) : Field :=
  { name := n, field_type := FieldType.base t, arity := ar, default_value := dv
  , is_unique := false, is_id := isId, is_generated := false, is_updated_at := false
  , database_name := none }

/-- A relation field. -/
def mkRelationField (n toModel relName : String) (tof : List String) : Field :=
  { name := n
  , field_type := FieldType.relation { «to» := toModel, name := relName, to_fields := tof, on_delete := OnDelete.noAction }
  , arity := FieldArity.required, default_value := none
  , is_unique := false, is_id := false, is_generated := false, is_updated_at := false
  , database_name := none }

/-- AST fields for a model's fields, with distinct spans by position. -/
def astFieldsOf : Nat → List Field → List AstField
  | _, [] => []
  | k, f :: fs => { name := f.name, span := { start := 100 + 10 * k, stop := 105 + 10 * k } } :: astFieldsOf (k + 1) fs

/-- An AST model mirroring a DML model, with distinct field spans. -/
def astOf (m : Model) : AstModel :=
  { name := m.name, span := { start := 0, stop := 7 }, fields := astFieldsOf 0 m.fields }

/-- An AST datamodel mirroring a DML datamodel. -/
def astDmOf (dm : Datamodel) : AstDatamodel :=
  { models := dm.models.map astOf }

/-- The schema `model Test { id Int @id }`. -/
def goodModel : Model :=
  { name := "Test", fields := [mkScalarField "id" ScalarType.int FieldArity.required none true]
  , is_embedded := false, is_relation_model := false, database_name := none }

/-- The schema `model X { id Float @id }` (spec scenario 9: invalid id shape). -/
def floatIdModel : Model :=
  { name := "X", fields := [mkScalarField "id" ScalarType.float FieldArity.required none true]
  , is_embedded := false, is_relation_model := false, database_name := none }

/-- The schema `model Blog { id Int @id post1 Post post2 Post }` (spec scenario 8). -/
def blogModel : Model :=
  { name := "Blog"
  , fields :=
      [ mkScalarField "id" ScalarType.int FieldArity.required none true
      , mkRelationField "post1" "Post" "BlogToPost" []
      , mkRelationField "post2" "Post" "BlogToPost" [] ]
  , is_embedded := false, is_relation_model := false, database_name := none }

/-- A model with an ambiguous self-relation triple followed by an ambiguous
foreign pair: the scan hits the self triple first. -/
def mixedModel : Model :=
  { name := "M"
  , fields :=
      [ mkRelationField "s1" "M" "R" []
      , mkRelationField "s2" "M" "R" []
      , mkRelationField "s3" "M" "R" []
      , mkRelationField "p1" "P" "S" []
      , mkRelationField "p2" "P" "S" [] ]
  , is_embedded := false, is_relation_model := false, database_name := none }

/-- A model with exactly two self-relation fields under one name: legal. -/
def selfPairModel : Model :=
  { name := "Emp"
  , fields :=
      [ mkScalarField "id" ScalarType.int FieldArity.required none true
      , mkRelationField "boss" "Emp" "R" []
      , mkRelationField "minion" "Emp" "R" [] ]
  , is_embedded := false, is_relation_model := false, database_name := none }

/-- A model with three self-relation fields under one name: ambiguous. -/
def selfTripleModel : Model :=
  { name := "Emp"
  , fields :=
      [ mkScalarField "id" ScalarType.int FieldArity.required none true
      , mkRelationField "boss" "Emp" "R" []
      , mkRelationField "minion" "Emp" "R" []
      , mkRelationField "peer" "Emp" "R" [] ]
  , is_embedded := false, is_relation_model := false, database_name := none }

/-- The schema `model Parent { id Int @id children Child[] }` (spec scenario 10). -/
def parentModel : Model :=
  { name := "Parent"
  , fields :=
      [ mkScalarField "id" ScalarType.int FieldArity.required none true
      , mkRelationField "children" "Child" "ChildToParent" [] ]
  , is_embedded := false, is_relation_model := false, database_name := none }

/-- The schema `model Child @@embedded { id Int @id parent Parent }` (spec scenario 10). -/
def childModel : Model :=
  { name := "Child"
  , fields :=
      [ mkScalarField "id" ScalarType.int FieldArity.required none true
      , mkRelationField "parent" "Parent" "ChildToParent" [] ]
  , is_embedded := true, is_relation_model := false, database_name := none }

/-- The two-model datamodel of spec scenario 10. -/
def embeddedDm : Datamodel := { models := [parentModel, childModel], enums := [] }

/-- An auto-synthesized relation table model: exempt from the id rule. -/
def relTableModel : Model :=
  { name := "_BlogToPost", fields := []
  , is_embedded := false, is_relation_model := true, database_name := none }

/-! ## Order lemmas for the lexicographic comparison -/

theorem charListLe_total : ∀ as bs : List Char, charListLe as bs = true ∨ charListLe bs as = true := by
  intro as
  induction as with
  | nil => intro bs; left; rfl
  | cons a as ih =>
    intro bs
    cases bs with
    | nil => right; rfl
    | cons b bs =>
      by_cases h1 : a < b
      · left; simp [charListLe, h1]
      · by_cases h2 : b < a
        · right; simp [charListLe, h2]
        · rcases ih bs with h | h
          · left; simp [charListLe, h1, h2, h]
          · right; simp [charListLe, h1, h2, h]

theorem charListLe_antisymm : ∀ as bs : List Char,
    charListLe as bs = true → charListLe bs as = true → as = bs := by
  intro as
  induction as with
  | nil =>
    intro bs h1 h2
    cases bs with
    | nil => rfl
    | cons b bs => simp [charListLe] at h2
  | cons a as ih =>
    intro bs h1 h2
    cases bs with
    | nil => simp [charListLe] at h1
    | cons b bs =>
      by_cases hab : a < b
      · exfalso
        have : ¬ b < a := lt_asymm hab
        simp [charListLe, hab, this] at h2
      · by_cases hba : b < a
        · exfalso; simp [charListLe, hab, hba] at h1
        · have hab' : a = b := le_antisymm (not_lt.mp hba) (not_lt.mp hab)
          subst hab'
          simp only [charListLe, lt_irrefl, if_false] at h1 h2
          rw [ih bs h1 h2]

theorem lexLe_total (s t : String) : lexLe s t = true ∨ lexLe t s = true :=
  charListLe_total s.data t.data

theorem lexLe_antisymm (s t : String) (h1 : lexLe s t = true) (h2 : lexLe t s = true) : s = t := by
  cases s with
  | mk ds =>
    cases t with
    | mk dt =>
      exact congrArg String.mk (charListLe_antisymm ds dt h1 h2)

/-! ## Claims -/

/-- C2: `validate_model_has_id` accepts a relation model unconditionally; a
non-relation model is accepted iff it has exactly one `@id` field, and any
other id-field count yields the model error at the model's span. -/
theorem validate_model_has_id_spec (ast_model : AstModel) (model : Model) :
    (model.is_relation_model = true → Validator.validate_model_has_id ast_model model = Except.ok ()) ∧
    (model.is_relation_model = false →
      ((Validator.validate_model_has_id ast_model model = Except.ok ()) ↔ model.id_fields.length = 1) ∧
      (model.id_fields.length ≠ 1 →
        Validator.validate_model_has_id ast_model model =
          Except.error (ValidationError.modelValidationError Validator.exactlyOneIdMessage model.name ast_model.span))) := by
  unfold Validator.validate_model_has_id
  constructor
  · intro h; simp [h]
  · intro h
    simp only [h, Bool.false_eq_true, if_false]
    constructor
    · constructor
      · intro hok
        by_contra hne
        rcases hn : model.id_fields.length with _ | k
        · rw [hn] at hok; exact Except.noConfusion hok
        · rcases k with _ | k
          · exact hne hn
          · rw [hn] at hok; exact Except.noConfusion hok
      · intro h1; rw [h1]
    · intro hne
      rcases hn : model.id_fields.length with _ | k
      · rfl
      · rcases k with _ | k
        · exact absurd hn hne
        · rfl

/-- Witness for C2: the scalar model with one id is accepted, the relation
table model with no id field is accepted. -/
theorem validate_model_has_id_spec_witness :
    Validator.validate_model_has_id (astOf goodModel) goodModel = Except.ok () ∧
    Validator.validate_model_has_id (astOf relTableModel) relTableModel = Except.ok () :=
  ⟨((validate_model_has_id_spec (astOf goodModel) goodModel).2 rfl).1.mpr rfl,
   (validate_model_has_id_spec (astOf relTableModel) relTableModel).1 rfl⟩

/-- C10: `validate` takes the DML datamodel by mutable reference but never
writes through it: the datamodel component of the result equals the input
datamodel, on panicking, `Ok` and `Err` outcomes alike. -/
theorem validate_preserves_datamodel (ast_schema : AstDatamodel) (schema : Datamodel) :
    (Validator.validate ast_schema schema).2 = schema := rfl

/-- C7: the builtin `embedded` directive — `validate_and_apply` returns Ok and
sets `is_embedded`; `serialize` emits the directive exactly when `is_embedded`
holds and `None` otherwise; serializing after applying returns the directive
(round-trip), and applying twice equals applying once. -/
theorem embedded_directive_roundtrip (args : List Lit) (m : Model) (dm : Datamodel) :
    (EmbeddedDirectiveValidator.validate_and_apply args m).1 = Except.ok () ∧
    ((EmbeddedDirectiveValidator.validate_and_apply args m).2).is_embedded = true ∧
    (EmbeddedDirectiveValidator.serialize m dm =
        Except.ok (some (AstDirective.mk EmbeddedDirectiveValidator.directive_name [])) ↔
      m.is_embedded = true) ∧
    (EmbeddedDirectiveValidator.serialize m dm = Except.ok none ↔ m.is_embedded = false) ∧
    EmbeddedDirectiveValidator.serialize (EmbeddedDirectiveValidator.validate_and_apply args m).2 dm =
      Except.ok (some (AstDirective.mk EmbeddedDirectiveValidator.directive_name [])) ∧
    EmbeddedDirectiveValidator.validate_and_apply args (EmbeddedDirectiveValidator.validate_and_apply args m).2 =
      EmbeddedDirectiveValidator.validate_and_apply args m := by
  unfold EmbeddedDirectiveValidator.validate_and_apply EmbeddedDirectiveValidator.serialize
  cases h : m.is_embedded <;> simp_all

/-- Witness for C7: the round-trip at a concrete non-embedded model. -/
theorem embedded_directive_roundtrip_witness :
    EmbeddedDirectiveValidator.serialize
        (EmbeddedDirectiveValidator.validate_and_apply [] goodModel).2 embeddedDm =
      Except.ok (some (AstDirective.mk EmbeddedDirectiveValidator.directive_name [])) :=
  (embedded_directive_roundtrip [] goodModel embeddedDm).2.2.2.2.1

/-- C8: relation-name derivation and side assignment — the derived name is
symmetric in the two model names, the relation's name is the derived name, the
sides satisfy `model_a ≤ model_b` lexicographically, the name is the ordered
sides joined by "To", and on the converter-test models the result is
`BlogToPost` with sides `(Blog, Post)`. -/
theorem relation_name_derivation (m n : String) :
    derive_relation_name m n = derive_relation_name n m ∧
    (build_relation m n).name = derive_relation_name m n ∧
    lexLe (build_relation m n).model_a (build_relation m n).model_b = true ∧
    (build_relation m n).name = (build_relation m n).model_a ++ "To" ++ (build_relation m n).model_b ∧
    derive_relation_name "Blog" "Post" = "BlogToPost" ∧
    build_relation "Post" "Blog" = { name := "BlogToPost", model_a := "Blog", model_b := "Post" } := by
  refine ⟨?_, ?_, ?_, ?_, rfl, rfl⟩
  · unfold derive_relation_name
    by_cases h1 : lexLe m n = true
    · by_cases h2 : lexLe n m = true
      · rw [lexLe_antisymm m n h1 h2]
      · simp [h1, h2]
    · by_cases h2 : lexLe n m = true
      · simp [h1, h2]
      · rcases lexLe_total m n with h | h
        · exact absurd h h1
        · exact absurd h h2
  · unfold build_relation derive_relation_name
    by_cases h1 : lexLe m n = true <;> simp [h1]
  · unfold build_relation
    by_cases h1 : lexLe m n = true
    · simp [h1]
    · rcases lexLe_total m n with h | h
      · exact absurd h h1
      · simp [h1, h]
  · unfold build_relation derive_relation_name
    by_cases h1 : lexLe m n = true <;> simp [h1]

/-- C9: a relation whose fields on both sides have `List` arity manifests as a
relation table `_<name>` with columns `A`/`B`; the rendered join table has
exactly those two columns, typed by the models' id types, each a foreign key
to the model's id column with `ON DELETE NO ACTION`; at the migration-test
schema this is `_AToB` with two Int columns. -/
theorem many_to_many_relation_table (rel_name : String) (a b : RelSide)
    (model_a model_b id_col_a id_col_b : String) (id_type_a id_type_b : ColumnType)
    (ha : a.arity = FieldArity.list) (hb : b.arity = FieldArity.list) :
    infer_manifestation rel_name a b = Manifestation.relationTable ("_" ++ rel_name) "A" "B" none ∧
    (relation_table_ddl rel_name model_a model_b id_col_a id_col_b id_type_a id_type_b).name = "_" ++ rel_name ∧
    (relation_table_ddl rel_name model_a model_b id_col_a id_col_b id_type_a id_type_b).columns =
      [ { name := "A", tpe := id_type_a
        , foreign_key := some { table := model_a, column := id_col_a, on_delete := OnDelete.noAction } }
      , { name := "B", tpe := id_type_b
        , foreign_key := some { table := model_b, column := id_col_b, on_delete := OnDelete.noAction } } ] ∧
    relation_table_ddl "AToB" "A" "B" "id" "id" ColumnType.int ColumnType.int =
      { name := "_AToB"
      , columns :=
          [ { name := "A", tpe := ColumnType.int
            , foreign_key := some { table := "A", column := "id", on_delete := OnDelete.noAction } }
          , { name := "B", tpe := ColumnType.int
            , foreign_key := some { table := "B", column := "id", on_delete := OnDelete.noAction } } ] } := by
  refine ⟨?_, rfl, rfl, rfl⟩
  unfold infer_manifestation
  simp [ha, hb]

/-- Witness for C9: the two list sides of the migration-test schema produce
the `_AToB` relation table manifestation. -/
theorem many_to_many_relation_table_witness :
    infer_manifestation "AToB"
        { model := "A", field := "bs", arity := FieldArity.list, references_set := false, map_override := none }
        { model := "B", field := "as", arity := FieldArity.list, references_set := false, map_override := none } =
      Manifestation.relationTable "_AToB" "A" "B" none :=
  (many_to_many_relation_table "AToB"
    { model := "A", field := "bs", arity := FieldArity.list, references_set := false, map_override := none }
    { model := "B", field := "as", arity := FieldArity.list, references_set := false, map_override := none }
    "A" "B" "id" "id" ColumnType.int ColumnType.int rfl rfl).1

/-! ## C1: valid id-field shapes -/

/-- The three permitted id-field shapes, as the spec words them: required Int
with no default, or required String whose default is a zero-argument expression
call named `cuid` or `uuid` returning String. -/
def ValidIdShape (f : Field) : Prop :=
  (f.default_value = none ∧ f.field_type = FieldType.base ScalarType.int ∧ f.arity = FieldArity.required) ∨
  ((f.default_value = some (Value.expression "cuid" ScalarType.string []) ∨
    f.default_value = some (Value.expression "uuid" ScalarType.string [])) ∧
   f.field_type = FieldType.base ScalarType.string ∧ f.arity = FieldArity.required)

instance (f : Field) : Decidable (ValidIdShape f) := by
  unfold ValidIdShape; infer_instance

theorem id_shape_expression_case (n : String) (u i g ua : Bool) (dbn : Option String)
    (nm : String) (rt : ScalarType) (args : List Lit) :
    Validator.id_field_shape_valid
      { name := n, field_type := FieldType.base ScalarType.string, arity := FieldArity.required
      , default_value := some (Value.expression nm rt args), is_unique := u, is_id := i
      , is_generated := g, is_updated_at := ua, database_name := dbn } = true ↔
    ValidIdShape
      { name := n, field_type := FieldType.base ScalarType.string, arity := FieldArity.required
      , default_value := some (Value.expression nm rt args), is_unique := u, is_id := i
      , is_generated := g, is_updated_at := ua, database_name := dbn } := by
  constructor
  · intro h
    simp only [Validator.id_field_shape_valid, Bool.and_eq_true, Bool.or_eq_true, beq_iff_eq] at h
    obtain ⟨⟨hname, hrt⟩, hargs⟩ := h
    subst hrt
    have hargs' : args = [] := by
      cases args with
      | nil => rfl
      | cons a as => simp [List.isEmpty] at hargs
    subst hargs'
    right
    rcases hname with rfl | rfl
    · exact ⟨Or.inl rfl, rfl, rfl⟩
    · exact ⟨Or.inr rfl, rfl, rfl⟩
  · intro h
    rcases h with ⟨hdv, hft, har⟩ | ⟨hdv, hft, har⟩
    · exact absurd hdv (by simp)
    · rcases hdv with hdv | hdv <;>
      · simp only [Option.some.injEq, Value.expression.injEq] at hdv
        obtain ⟨h1, h2, h3⟩ := hdv
        subst h1; subst h2; subst h3
        rfl

theorem id_field_shape_valid_iff (f : Field) :
    Validator.id_field_shape_valid f = true ↔ ValidIdShape f := by
  rcases f with ⟨n, ft, ar, dv, u, i, g, ua, dbn⟩
  rcases dv with _ | v
  · rcases ft with t | en | ri
    · rcases t <;> rcases ar <;>
        simp [Validator.id_field_shape_valid, ValidIdShape]
    · rcases ar <;> simp [Validator.id_field_shape_valid, ValidIdShape]
    · rcases ar <;> simp [Validator.id_field_shape_valid, ValidIdShape]
  · rcases v with l | ⟨nm, rt, args⟩
    · rcases ft with t | en | ri
      · rcases t <;> rcases ar <;>
          simp [Validator.id_field_shape_valid, ValidIdShape]
      · rcases ar <;> simp [Validator.id_field_shape_valid, ValidIdShape]
      · rcases ar <;> simp [Validator.id_field_shape_valid, ValidIdShape]
    · rcases ft with t | en | ri
      · rcases t <;> rcases ar
        all_goals try (simp [Validator.id_field_shape_valid, ValidIdShape]; done)
        exact id_shape_expression_case n u i g ua dbn nm rt args
      · rcases ar <;> simp [Validator.id_field_shape_valid, ValidIdShape]
      · rcases ar <;> simp [Validator.id_field_shape_valid, ValidIdShape]

theorem id_fields_loop_ok_iff (ast_schema : AstDatamodel) (model : Model) (l : List Field) :
    Validator.id_fields_loop ast_schema model l = some (Except.ok ()) ↔
      ∀ f ∈ l, Validator.id_field_shape_valid f = true := by
  induction l with
  | nil => simp [Validator.id_fields_loop]
  | cons f rest ih =>
    by_cases h : Validator.id_field_shape_valid f = true
    · simp [Validator.id_fields_loop, h, ih]
    · simp only [Validator.id_fields_loop, h, if_false, Bool.false_eq_true]
      cases hf : ast_schema.find_field model.name f.name with
      | none => simp [h]
      | some af => simp [h]

theorem id_fields_loop_first_invalid (ast_schema : AstDatamodel) (model : Model) :
    ∀ (l : List Field) (f : Field) (af : AstField),
      l.find? (fun g => ! Validator.id_field_shape_valid g) = some f →
      ast_schema.find_field model.name f.name = some af →
      Validator.id_fields_loop ast_schema model l =
        some (Except.error (ValidationError.modelValidationError Validator.idFieldErrorMessage model.name af.span)) := by
  intro l
  induction l with
  | nil => intro f af hfind; simp [List.find?] at hfind
  | cons g rest ih =>
    intro f af hfind haf
    by_cases h : Validator.id_field_shape_valid g = true
    · rw [List.find?_cons_of_neg] at hfind
      · simp only [Validator.id_fields_loop, h, if_true]
        exact ih f af hfind haf
      · simp [h]
    · rw [List.find?_cons_of_pos] at hfind
      · cases hfind
        simp [Validator.id_fields_loop, h, haf]
      · simp [h]

/-- C1: `validate_id_fields_valid` accepts exactly when every `@id` field has
one of the three permitted shapes; otherwise it reports the fixed message as a
model error whose span is the first offending id field's span. -/
theorem id_fields_validation (ast_schema : AstDatamodel) (model : Model) :
    (Validator.validate_id_fields_valid ast_schema model = some (Except.ok ()) ↔
      ∀ f ∈ model.id_fields, ValidIdShape f) ∧
    (∀ (f : Field) (af : AstField),
      model.id_fields.find? (fun g => ! Validator.id_field_shape_valid g) = some f →
      ast_schema.find_field model.name f.name = some af →
      Validator.validate_id_fields_valid ast_schema model =
        some (Except.error (ValidationError.modelValidationError Validator.idFieldErrorMessage model.name af.span))) := by
  constructor
  · rw [Validator.validate_id_fields_valid, id_fields_loop_ok_iff]
    constructor
    · intro h f hf; exact (id_field_shape_valid_iff f).mp (h f hf)
    · intro h f hf; exact (id_field_shape_valid_iff f).mpr (h f hf)
  · intro f af hfind haf
    exact id_fields_loop_first_invalid ast_schema model model.id_fields f af hfind haf

/-- Witness for C1: the Int-id model is accepted; the Float-id model of spec
scenario 9 is rejected with the fixed message at the id field's span. -/
theorem id_fields_validation_witness :
    Validator.validate_id_fields_valid (astDmOf { models := [goodModel], enums := [] }) goodModel
      = some (Except.ok ()) ∧
    Validator.validate_id_fields_valid (astDmOf { models := [floatIdModel], enums := [] }) floatIdModel
      = some (Except.error (ValidationError.modelValidationError Validator.idFieldErrorMessage
          floatIdModel.name (Span.mk 100 105))) :=
  ⟨(id_fields_validation (astDmOf { models := [goodModel], enums := [] }) goodModel).1.mpr
      (by decide),
   (id_fields_validation (astDmOf { models := [floatIdModel], enums := [] }) floatIdModel).2
      (mkScalarField "id" ScalarType.float FieldArity.required none true)
      (AstField.mk "id" (Span.mk 100 105)) (by decide) (by decide)⟩

/-! ## C3/C4: relation-ambiguity machinery -/

/-- Whether a field's type is a relation. -/
def is_relation_field (f : Field) : Bool :=
  match f.field_type with
  | FieldType.relation _ => true
  | _ => false

/-- The relation fields of a model, in declaration order. -/
def relation_fields (m : Model) : List Field :=
  m.fields.filter (fun f => is_relation_field f)

/-- No relation field of the model references the owning model. -/
def no_self_fields (m : Model) : Bool :=
  m.fields.all (fun g =>
    match g.field_type with
    | FieldType.relation r => r.«to» != m.name
    | _ => true)

/-- The foreign-pair condition of `pair_check` for `(f, g)`, as one boolean. -/
def foreign_pair_hit (m : Model) (f g : Field) : Bool :=
  f != g &&
    (match f.field_type, g.field_type with
     | FieldType.relation ra, FieldType.relation rb =>
       ra.«to» != m.name && rb.«to» != m.name && ra.«to» == rb.«to» && ra.name == rb.name
     | _, _ => false)

/-- Field `f` has an ambiguous partner in `m`: a different field whose relation
targets the same peer model (other than `m`) under the same relation name. -/
def HasAmbiguousPartner (m : Model) (f : Field) : Prop :=
  ∃ ra, f.field_type = FieldType.relation ra ∧ ra.«to» ≠ m.name ∧
    ∃ g ∈ m.fields, g ≠ f ∧ ∃ rb, g.field_type = FieldType.relation rb ∧
      rb.«to» ≠ m.name ∧ ra.«to» = rb.«to» ∧ ra.name = rb.name

theorem foreign_pair_hit_iff (m : Model) (f g : Field) :
    foreign_pair_hit m f g = true ↔
      f ≠ g ∧ ∃ ra rb, f.field_type = FieldType.relation ra ∧ g.field_type = FieldType.relation rb ∧
        ra.«to» ≠ m.name ∧ rb.«to» ≠ m.name ∧ ra.«to» = rb.«to» ∧ ra.name = rb.name := by
  unfold foreign_pair_hit
  rcases hf : f.field_type with t | en | ra <;> rcases hg : g.field_type with t' | en' | rb <;>
    simp [hf, hg, bne_iff_ne, and_assoc]

theorem hasAmbiguousPartner_iff (m : Model) (f : Field) :
    m.fields.any (fun g => foreign_pair_hit m f g) = true ↔ HasAmbiguousPartner m f := by
  rw [List.any_eq_true]
  unfold HasAmbiguousPartner
  constructor
  · rintro ⟨g, hg, hhit⟩
    rw [foreign_pair_hit_iff] at hhit
    obtain ⟨hne, ra, rb, hfra, hgrb, h1, h2, h3, h4⟩ := hhit
    exact ⟨ra, hfra, h1, g, hg, hne.symm, rb, hgrb, h2, h3, h4⟩
  · rintro ⟨ra, hfra, h1, g, hg, hne, rb, hgrb, h2, h3, h4⟩
    refine ⟨g, hg, ?_⟩
    rw [foreign_pair_hit_iff]
    exact ⟨hne.symm, ra, rb, hfra, hgrb, h1, h2, h3, h4⟩

/-- The model-wide no-self hypothesis, in elementwise form. -/
theorem no_self_fields_elim (m : Model) (hns : no_self_fields m = true) :
    ∀ c ∈ m.fields, ∀ rc, c.field_type = FieldType.relation rc → rc.«to» ≠ m.name := by
  intro c hc rc hrc
  rw [no_self_fields, List.all_eq_true] at hns
  have := hns c hc
  rw [hrc] at this
  simpa [bne_iff_ne] using this

theorem pair_check_none_of_nonrel (m : Model) (f g : Field)
    (h : is_relation_field f = false ∨ is_relation_field g = false) :
    Validator.pair_check m f g = none := by
  unfold Validator.pair_check
  by_cases hfg : (f != g) = true
  · rw [if_pos hfg]
    unfold is_relation_field at h
    rcases hf : f.field_type with t | en | ra <;> rcases hg : g.field_type with t' | en' | rb <;>
      simp [hf, hg] at h ⊢
  · rw [if_neg hfg]

theorem pair_check_self_eq_none (m : Model) (f : Field) :
    Validator.pair_check m f f = none := by
  unfold Validator.pair_check
  simp

/-- Evaluating `pair_check` for a pair of relation fields, with the matches reduced. -/
theorem pair_check_rel_rel (m : Model) (f g : Field) (ra rb : RelationInfo)
    (hf : f.field_type = FieldType.relation ra) (hg : g.field_type = FieldType.relation rb) :
    Validator.pair_check m f g =
      if f != g then
        (if ra.«to» != m.name && rb.«to» != m.name then
          (if ra.«to» == rb.«to» && ra.name == rb.name then
            some Validator.ambiguousRelationMessage
          else none)
        else
          (if Validator.self_scan m f g ra rb then
            some Validator.ambiguousSelfRelationMessage
          else none))
      else none := by
  unfold Validator.pair_check
  rw [hf, hg]

/-- Under the no-self hypothesis the third-field scan never fires. -/
theorem self_scan_false_of_no_self (m : Model) (hns : no_self_fields m = true)
    (f g : Field) (ra rb : RelationInfo) :
    Validator.self_scan m f g ra rb = false := by
  have hns' := no_self_fields_elim m hns
  unfold Validator.self_scan
  rw [List.any_eq_false]
  intro c hc
  rcases hcft : c.field_type with tc | enc | rc
  · simp [hcft]
  · simp [hcft]
  · simp [hcft, hns' c hc rc hcft]

/-- Under `no_self_fields`, a pair raises a message exactly on a foreign hit. -/
theorem pair_check_no_self (m : Model) (hns : no_self_fields m = true) (f g : Field) :
    Validator.pair_check m f g =
      (if foreign_pair_hit m f g = true then some Validator.ambiguousRelationMessage else none) := by
  rcases hf : f.field_type with t | en | ra <;> rcases hg : g.field_type with t' | en' | rb
  case base.base | base.enum | base.relation | enum.base | enum.enum | enum.relation
     | relation.base | relation.enum =>
    rw [pair_check_none_of_nonrel m f g (by unfold is_relation_field; simp [hf, hg])]
    unfold foreign_pair_hit
    rw [hf]
    try rw [hg]
    simp
  case relation.relation =>
    rw [pair_check_rel_rel m f g ra rb hf hg]
    unfold foreign_pair_hit
    rw [hf, hg]
    by_cases hfg : (f != g) = true
    · simp only [hfg, if_true, Bool.true_and]
      by_cases hA : (ra.«to» != m.name) = true
      · by_cases hB : (rb.«to» != m.name) = true
        · simp [hA, hB]
        · simp [hA, hB, self_scan_false_of_no_self m hns f g ra rb,
            eq_false_of_ne_true hB]
      · simp [eq_false_of_ne_true hA, self_scan_false_of_no_self m hns f g ra rb]
    · have hfg' : (f != g) = false := eq_false_of_ne_true hfg
      simp [hfg']

/-- Under the no-self hypothesis, the inner field loop finds the foreign
message exactly when some listed field is an ambiguous partner. -/
theorem inner_scan_no_self (m : Model) (hns : no_self_fields m = true) (f : Field) :
    ∀ l : List Field, Validator.inner_scan m f l =
      (if l.any (fun g => foreign_pair_hit m f g) then some Validator.ambiguousRelationMessage else none) := by
  intro l
  induction l with
  | nil => rfl
  | cons g rest ih =>
    rw [Validator.inner_scan, pair_check_no_self m hns f g]
    by_cases h : foreign_pair_hit m f g = true
    · simp [h]
    · simp only [h, Bool.false_eq_true, if_false]
      rw [ih]
      simp [eq_false_of_ne_true h]

/-- Under the no-self hypothesis, the outer field loop reports the foreign
message at the first field having an ambiguous partner, if any. -/
theorem outer_scan_no_self (ast_schema : AstDatamodel) (m : Model) (hns : no_self_fields m = true) :
    ∀ l : List Field, Validator.outer_scan ast_schema m l =
      (match l.find? (fun f => m.fields.any (fun g => foreign_pair_hit m f g)) with
       | some f =>
         (ast_schema.find_field m.name f.name).map
           (fun af => Except.error (ValidationError.modelValidationError
             Validator.ambiguousRelationMessage m.name af.span))
       | none => some (Except.ok ())) := by
  intro l
  induction l with
  | nil => rfl
  | cons fa rest ih =>
    rw [Validator.outer_scan, inner_scan_no_self m hns fa m.fields]
    by_cases h : m.fields.any (fun g => foreign_pair_hit m fa g) = true
    · rw [@List.find?_cons_of_pos _ (fun f => m.fields.any (fun g => foreign_pair_hit m f g)) fa rest h]
      simp [h]
    · rw [@List.find?_cons_of_neg _ (fun f => m.fields.any (fun g => foreign_pair_hit m f g)) fa rest h]
      simp only [h, Bool.false_eq_true, if_false]
      exact ih

/-- Counterexample to C3 as stated: `mixedModel` contains the two distinct
relation fields `p1`, `p2` that both reference the peer model `P` (other than
the owning model `M`) and agree on target and relation name, yet the validator
does not report "Ambiguous relation detected." — the scan hits an ambiguous
self-relation triple first and reports "Ambiguous self relation detected."
at `s1`'s span instead. -/
theorem relations_claim_counterexample :
    Validator.validate_relations_not_ambiguous (astDmOf { models := [mixedModel], enums := [] }) mixedModel
      = some (Except.error (ValidationError.modelValidationError
          Validator.ambiguousSelfRelationMessage "M" (Span.mk 100 105))) ∧
    ¬ ∃ sp, Validator.validate_relations_not_ambiguous (astDmOf { models := [mixedModel], enums := [] }) mixedModel
      = some (Except.error (ValidationError.modelValidationError
          Validator.ambiguousRelationMessage mixedModel.name sp)) := by
  constructor
  · rfl
  · rintro ⟨sp, h⟩
    rw [show Validator.validate_relations_not_ambiguous (astDmOf { models := [mixedModel], enums := [] }) mixedModel
        = some (Except.error (ValidationError.modelValidationError
            Validator.ambiguousSelfRelationMessage "M" (Span.mk 100 105))) from rfl] at h
    simp only [Option.some.injEq] at h
    have := congrArg (fun e => match e with
      | Except.error (ValidationError.modelValidationError msg _ _) => msg
      | _ => "") h
    simp only [] at this
    exact absurd this (by decide)

/-- C3 (amended): for a model none of whose relation fields reference the
owning model, if two distinct relation fields agree on target and relation
name then `validate_relations_not_ambiguous` reports "Ambiguous relation
detected." at the span of the first field (in declaration order) that has an
ambiguous partner. -/
theorem ambiguous_relation_detection (ast_schema : AstDatamodel) (m : Model)
    (hns : no_self_fields m = true)
    (a b : Field) (ra rb : RelationInfo)
    (ha : a ∈ m.fields) (hb : b ∈ m.fields) (hab : a ≠ b)
    (hra : a.field_type = FieldType.relation ra) (hrb : b.field_type = FieldType.relation rb)
    (hato : ra.«to» ≠ m.name) (hbto : rb.«to» ≠ m.name)
    (hto : ra.«to» = rb.«to») (hname : ra.name = rb.name) :
    ∃ first, m.fields.find? (fun f => m.fields.any (fun g => foreign_pair_hit m f g)) = some first ∧
      HasAmbiguousPartner m first ∧
      ∀ af, ast_schema.find_field m.name first.name = some af →
        Validator.validate_relations_not_ambiguous ast_schema m =
          some (Except.error (ValidationError.modelValidationError
            Validator.ambiguousRelationMessage m.name af.span)) := by
  have hhit : foreign_pair_hit m a b = true := by
    rw [foreign_pair_hit_iff]
    exact ⟨hab, ra, rb, hra, hrb, hato, hbto, hto, hname⟩
  have hpa : (m.fields.any (fun g => foreign_pair_hit m a g)) = true :=
    List.any_eq_true.mpr ⟨b, hb, hhit⟩
  have hsome : (m.fields.find? (fun f => m.fields.any (fun g => foreign_pair_hit m f g))).isSome :=
    List.find?_isSome.mpr ⟨a, ha, hpa⟩
  rcases hfind : m.fields.find? (fun f => m.fields.any (fun g => foreign_pair_hit m f g)) with _ | first
  · rw [hfind] at hsome; exact absurd hsome (by simp)
  · refine ⟨first, rfl, ?_, ?_⟩
    · have hp := List.find?_some hfind
      exact (hasAmbiguousPartner_iff m first).mp hp
    · intro af haf
      rw [Validator.validate_relations_not_ambiguous, outer_scan_no_self ast_schema m hns m.fields, hfind]
      simp [haf]

/-- Witness for C3 (amended): spec scenario 8 — `model Blog { id Int @id
post1 Post post2 Post }` yields "Ambiguous relation detected." at `post1`'s span. -/
theorem ambiguous_relation_detection_witness :
    Validator.validate_relations_not_ambiguous (astDmOf { models := [blogModel], enums := [] }) blogModel
      = some (Except.error (ValidationError.modelValidationError
          Validator.ambiguousRelationMessage "Blog" (Span.mk 110 115))) := by
  obtain ⟨first, hfind, _hpart, himp⟩ :=
    ambiguous_relation_detection (astDmOf { models := [blogModel], enums := [] }) blogModel
      (by decide)
      (mkRelationField "post1" "Post" "BlogToPost" [])
      (mkRelationField "post2" "Post" "BlogToPost" [])
      { «to» := "Post", name := "BlogToPost", to_fields := [], on_delete := OnDelete.noAction }
      { «to» := "Post", name := "BlogToPost", to_fields := [], on_delete := OnDelete.noAction }
      (by decide) (by decide) (by decide) rfl rfl (by decide) (by decide) rfl rfl
  have hcomp : blogModel.fields.find?
      (fun f => blogModel.fields.any (fun g => foreign_pair_hit blogModel f g))
      = some (mkRelationField "post1" "Post" "BlogToPost" []) := by decide
  rw [hcomp] at hfind
  have hfirst : first = mkRelationField "post1" "Post" "BlogToPost" [] :=
    (Option.some.inj hfind).symm
  subst hfirst
  exact himp (AstField.mk "post1" (Span.mk 110 115)) (by decide)

/-! ## C4: self-relation rule -/

theorem inner_scan_none_iff (m : Model) (f : Field) :
    ∀ l : List Field, Validator.inner_scan m f l = none ↔ ∀ g ∈ l, Validator.pair_check m f g = none := by
  intro l
  induction l with
  | nil => simp [Validator.inner_scan]
  | cons g rest ih =>
    rw [Validator.inner_scan]
    cases hpc : Validator.pair_check m f g with
    | some msg => simp [hpc]
    | none => simp [hpc, ih]

theorem inner_scan_first (m : Model) (f : Field) (msg : String) :
    ∀ l : List Field,
      (∀ g ∈ l, Validator.pair_check m f g = none ∨ Validator.pair_check m f g = some msg) →
      (∃ g ∈ l, Validator.pair_check m f g = some msg) →
      Validator.inner_scan m f l = some msg := by
  intro l
  induction l with
  | nil => rintro _ ⟨g, hg, _⟩; simp at hg
  | cons g rest ih =>
    intro hall hex
    rw [Validator.inner_scan]
    cases hpc : Validator.pair_check m f g with
    | some msg' =>
      rcases hall g (by simp) with h | h
      · rw [hpc] at h; exact Option.noConfusion h
      · rw [hpc] at h; rw [Option.some.inj h]
    | none =>
      apply ih
      · intro g' hg'; exact hall g' (by simp [hg'])
      · rcases hex with ⟨g', hg', hpc'⟩
        rcases List.mem_cons.mp hg' with rfl | hmem
        · rw [hpc] at hpc'; exact Option.noConfusion hpc'
        · exact ⟨g', hmem, hpc'⟩

theorem outer_scan_ok (ast_schema : AstDatamodel) (m : Model) :
    ∀ l : List Field, (∀ fa ∈ l, Validator.inner_scan m fa m.fields = none) →
      Validator.outer_scan ast_schema m l = some (Except.ok ()) := by
  intro l
  induction l with
  | nil => intro _; rfl
  | cons fa rest ih =>
    intro h
    rw [Validator.outer_scan, h fa (by simp)]
    exact ih (fun g hg => h g (by simp [hg]))

theorem outer_scan_first_hit (ast_schema : AstDatamodel) (m : Model) (f : Field) (msg : String)
    (hf : Validator.inner_scan m f m.fields = some msg) :
    ∀ pre post : List Field, (∀ g ∈ pre, Validator.inner_scan m g m.fields = none) →
      Validator.outer_scan ast_schema m (pre ++ f :: post) =
        (ast_schema.find_field m.name f.name).map
          (fun af => Except.error (ValidationError.modelValidationError msg m.name af.span)) := by
  intro pre
  induction pre with
  | nil =>
    intro post _
    rw [List.nil_append, Validator.outer_scan, hf]
  | cons g pre ih =>
    intro post hpre
    rw [List.cons_append, Validator.outer_scan, hpre g (by simp)]
    exact ih post (fun g' hg' => hpre g' (by simp [hg']))

/-- A non-relation field raises nothing against any partner. -/
theorem inner_scan_none_of_nonrel (m : Model) (f : Field) (h : is_relation_field f = false) :
    ∀ l : List Field, Validator.inner_scan m f l = none := by
  intro l
  rw [inner_scan_none_iff]
  intro g _
  exact pair_check_none_of_nonrel m f g (Or.inl h)

/-- If every relation field of the model is one of two given fields, the
third-field scan over those two finds nothing. -/
theorem self_scan_false_of_cover (m : Model) (x y : Field) (rx ry : RelationInfo)
    (hcover : ∀ c ∈ m.fields, is_relation_field c = true → c = x ∨ c = y) :
    Validator.self_scan m x y rx ry = false := by
  unfold Validator.self_scan
  rw [List.any_eq_false]
  intro c hc
  by_cases hcrel : is_relation_field c = true
  · rcases hcover c hc hcrel with rfl | rfl
    · simp
    · simp
  · unfold is_relation_field at hcrel
    rcases hcft : c.field_type with tc | enc | rc
    · simp [hcft]
    · simp [hcft]
    · rw [hcft] at hcrel; simp at hcrel

/-- Fields listed in `relation_fields` are relation fields of the model. -/
theorem mem_of_mem_relation_fields (m : Model) (f : Field) (h : f ∈ relation_fields m) :
    f ∈ m.fields ∧ is_relation_field f = true := by
  unfold relation_fields at h
  exact ⟨(List.mem_filter.mp h).1, (List.mem_filter.mp h).2⟩

/-- C4: a model whose relation fields are exactly two fields pointing back at
the owning model under one relation name passes
`validate_relations_not_ambiguous`; with exactly three such fields, all
distinct, under one name, it reports "Ambiguous self relation detected." at
the first field's span. -/
theorem self_relation_rule (ast_schema : AstDatamodel) (m : Model)
    (s1 s2 s3 : Field) (r1 r2 r3 : RelationInfo) :
    (relation_fields m = [s1, s2] →
      s1.field_type = FieldType.relation r1 → s2.field_type = FieldType.relation r2 →
      r1.«to» = m.name → r2.«to» = m.name → r1.name = r2.name →
      Validator.validate_relations_not_ambiguous ast_schema m = some (Except.ok ())) ∧
    (relation_fields m = [s1, s2, s3] →
      s1.field_type = FieldType.relation r1 → s2.field_type = FieldType.relation r2 →
      s3.field_type = FieldType.relation r3 →
      r1.«to» = m.name → r2.«to» = m.name → r3.«to» = m.name →
      r1.name = r2.name → r1.name = r3.name →
      s1 ≠ s2 → s1 ≠ s3 → s2 ≠ s3 →
      ∀ af, ast_schema.find_field m.name s1.name = some af →
        Validator.validate_relations_not_ambiguous ast_schema m =
          some (Except.error (ValidationError.modelValidationError
            Validator.ambiguousSelfRelationMessage m.name af.span))) := by
  constructor
  · intro hrf hr1 hr2 hto1 hto2 _hname
    have hcover : ∀ c ∈ m.fields, is_relation_field c = true → c = s1 ∨ c = s2 := by
      intro c hc hcrel
      have : c ∈ relation_fields m := List.mem_filter.mpr ⟨hc, hcrel⟩
      rw [hrf] at this
      simpa using this
    rw [Validator.validate_relations_not_ambiguous]
    apply outer_scan_ok
    intro fa hfa
    by_cases hfarel : is_relation_field fa = true
    · rw [inner_scan_none_iff]
      intro g hg
      by_cases hgrel : is_relation_field g = true
      · rcases hcover fa hfa hfarel with h1 | h1 <;> rcases hcover g hg hgrel with h2 | h2 <;>
          rw [h1, h2]
        · exact pair_check_self_eq_none m s1
        · rw [pair_check_rel_rel m s1 s2 r1 r2 hr1 hr2]
          by_cases hfg : (s1 != s2) = true
          · simp [hfg, hto1, self_scan_false_of_cover m s1 s2 r1 r2
              (fun c hc hcrel => hcover c hc hcrel)]
          · simp [eq_false_of_ne_true hfg]
        · rw [pair_check_rel_rel m s2 s1 r2 r1 hr2 hr1]
          by_cases hfg : (s2 != s1) = true
          · simp [hfg, hto2, self_scan_false_of_cover m s2 s1 r2 r1
              (fun c hc hcrel => Or.symm (hcover c hc hcrel))]
          · simp [eq_false_of_ne_true hfg]
        · exact pair_check_self_eq_none m s2
      · exact pair_check_none_of_nonrel m fa g (Or.inr (eq_false_of_ne_true hgrel))
    · exact inner_scan_none_of_nonrel m fa (eq_false_of_ne_true hfarel) m.fields
  · intro hrf hr1 hr2 hr3 hto1 hto2 hto3 hn12 hn13 hd12 hd13 hd23 af haf
    have hs2mem : s2 ∈ m.fields := by
      have : s2 ∈ relation_fields m := by rw [hrf]; simp
      exact (mem_of_mem_relation_fields m s2 this).1
    have hs3mem : s3 ∈ m.fields := by
      have : s3 ∈ relation_fields m := by rw [hrf]; simp
      exact (mem_of_mem_relation_fields m s3 this).1
    have hcover : ∀ c ∈ m.fields, is_relation_field c = true → c = s1 ∨ c = s2 ∨ c = s3 := by
      intro c hc hcrel
      have : c ∈ relation_fields m := List.mem_filter.mpr ⟨hc, hcrel⟩
      rw [hrf] at this
      simpa using this
    have hall : ∀ g ∈ m.fields, Validator.pair_check m s1 g = none ∨
        Validator.pair_check m s1 g = some Validator.ambiguousSelfRelationMessage := by
      intro g hg
      by_cases hgrel : is_relation_field g = true
      · rcases hcover g hg hgrel with h2 | h2 | h2 <;> rw [h2]
        · exact Or.inl (pair_check_self_eq_none m s1)
        · rw [pair_check_rel_rel m s1 s2 r1 r2 hr1 hr2]
          by_cases hfg : (s1 != s2) = true
          · simp only [hfg, if_true, hto1, bne_self_eq_false, Bool.false_and,
              Bool.false_eq_true, if_false]
            by_cases hsc : Validator.self_scan m s1 s2 r1 r2 = true
            · rw [if_pos hsc]; exact Or.inr rfl
            · rw [if_neg hsc]; exact Or.inl rfl
          · simp [eq_false_of_ne_true hfg]
        · rw [pair_check_rel_rel m s1 s3 r1 r3 hr1 hr3]
          by_cases hfg : (s1 != s3) = true
          · simp only [hfg, if_true, hto1, bne_self_eq_false, Bool.false_and,
              Bool.false_eq_true, if_false]
            by_cases hsc : Validator.self_scan m s1 s3 r1 r3 = true
            · rw [if_pos hsc]; exact Or.inr rfl
            · rw [if_neg hsc]; exact Or.inl rfl
          · simp [eq_false_of_ne_true hfg]
      · exact Or.inl (pair_check_none_of_nonrel m s1 g (Or.inr (eq_false_of_ne_true hgrel)))
    have hex : Validator.pair_check m s1 s2 = some Validator.ambiguousSelfRelationMessage := by
      rw [pair_check_rel_rel m s1 s2 r1 r2 hr1 hr2]
      have hfg : (s1 != s2) = true := bne_iff_ne.mpr hd12
      have hsc : Validator.self_scan m s1 s2 r1 r2 = true := by
        unfold Validator.self_scan
        rw [List.any_eq_true]
        refine ⟨s3, hs3mem, ?_⟩
        rw [hr3]
        simp [bne_iff_ne, hd13, hd23, hto3, hn12, hn13, hn12.symm.trans hn13, beq_iff_eq]
      simp [hfg, hto1, hsc]
    have hinner : Validator.inner_scan m s1 m.fields = some Validator.ambiguousSelfRelationMessage :=
      inner_scan_first m s1 Validator.ambiguousSelfRelationMessage m.fields hall ⟨s2, hs2mem, hex⟩
    obtain ⟨pre, post, hsplit, hpre, _, _⟩ :=
      List.filter_eq_cons_iff.mp hrf
    rw [Validator.validate_relations_not_ambiguous, hsplit]
    rw [outer_scan_first_hit ast_schema m s1 Validator.ambiguousSelfRelationMessage hinner pre post]
    · rw [haf]; rfl
    · intro g hg
      exact inner_scan_none_of_nonrel m g (eq_false_of_ne_true (hpre g hg)) m.fields

/-- Witness for C4: the two-field self-relation model passes; the three-field
model is rejected at the first self-relation field's span. -/
theorem self_relation_rule_witness :
    Validator.validate_relations_not_ambiguous
        (astDmOf { models := [selfPairModel], enums := [] }) selfPairModel = some (Except.ok ()) ∧
    Validator.validate_relations_not_ambiguous
        (astDmOf { models := [selfTripleModel], enums := [] }) selfTripleModel =
      some (Except.error (ValidationError.modelValidationError
        Validator.ambiguousSelfRelationMessage "Emp" (Span.mk 110 115))) :=
  ⟨(self_relation_rule (astDmOf { models := [selfPairModel], enums := [] }) selfPairModel
      (mkRelationField "boss" "Emp" "R" []) (mkRelationField "minion" "Emp" "R" [])
      (mkRelationField "minion" "Emp" "R" [])
      { «to» := "Emp", name := "R", to_fields := [], on_delete := OnDelete.noAction }
      { «to» := "Emp", name := "R", to_fields := [], on_delete := OnDelete.noAction }
      { «to» := "Emp", name := "R", to_fields := [], on_delete := OnDelete.noAction }).1
      (by decide) rfl rfl rfl rfl rfl,
   (self_relation_rule (astDmOf { models := [selfTripleModel], enums := [] }) selfTripleModel
      (mkRelationField "boss" "Emp" "R" []) (mkRelationField "minion" "Emp" "R" [])
      (mkRelationField "peer" "Emp" "R" [])
      { «to» := "Emp", name := "R", to_fields := [], on_delete := OnDelete.noAction }
      { «to» := "Emp", name := "R", to_fields := [], on_delete := OnDelete.noAction }
      { «to» := "Emp", name := "R", to_fields := [], on_delete := OnDelete.noAction }).2
      (by decide) rfl rfl rfl rfl rfl rfl rfl rfl (by decide) (by decide) (by decide)
      (AstField.mk "boss" (Span.mk 110 115)) (by decide)⟩

/-! ## C5: embedded back-relation check -/

/-- The condition under which `validate_embedded_types_have_no_back_relation`
rejects a field, as one boolean (false also when a lookup would panic). -/
def back_relation_offending (datamodel : Datamodel) (m : Model) (f : Field) : Bool :=
  !f.is_generated &&
    (match f.field_type with
     | FieldType.relation rel =>
       (match datamodel.find_model rel.«to» with
        | some related =>
          (match related.related_field m.name rel.name f.name with
           | some companion => rel.to_fields.isEmpty && !companion.is_generated
           | none => false)
        | none => false)
     | _ => false)

/-- The spec-side offending predicate: a non-generated relation field whose
`to_fields` is empty and whose companion on the peer model is not generated. -/
def BackRelationOffending (datamodel : Datamodel) (m : Model) (f : Field) : Prop :=
  f.is_generated = false ∧
  ∃ rel, f.field_type = FieldType.relation rel ∧ rel.to_fields = [] ∧
    ∃ related companion, datamodel.find_model rel.«to» = some related ∧
      related.related_field m.name rel.name f.name = some companion ∧
      companion.is_generated = false

/-- One field's peer and companion lookups succeed (no panic). -/
def FieldLookupsResolve (datamodel : Datamodel) (m : Model) (f : Field) : Prop :=
  f.is_generated = false → ∀ rel, f.field_type = FieldType.relation rel →
    ∃ related, datamodel.find_model rel.«to» = some related ∧
      ∃ companion, related.related_field m.name rel.name f.name = some companion

/-- All peer and companion lookups of the check succeed, as one boolean. -/
def relation_lookups_resolve (datamodel : Datamodel) (m : Model) : Bool :=
  m.fields.all (fun f =>
    f.is_generated ||
    (match f.field_type with
     | FieldType.relation rel =>
       (match datamodel.find_model rel.«to» with
        | some related => (related.related_field m.name rel.name f.name).isSome
        | none => false)
     | _ => true))

theorem relation_lookups_resolve_elim (datamodel : Datamodel) (m : Model)
    (h : relation_lookups_resolve datamodel m = true) :
    ∀ f ∈ m.fields, FieldLookupsResolve datamodel m f := by
  intro f hf hg rel hrel
  rw [relation_lookups_resolve, List.all_eq_true] at h
  have hfact := h f hf
  rw [hg, hrel] at hfact
  simp only [Bool.false_or] at hfact
  cases hfm : datamodel.find_model rel.«to» with
  | none => rw [hfm] at hfact; simp at hfact
  | some related =>
    rw [hfm] at hfact
    simp only [] at hfact
    cases hcf : related.related_field m.name rel.name f.name with
    | none => rw [hcf] at hfact; simp at hfact
    | some companion => exact ⟨related, rfl, companion, hcf⟩

/-- Loop step: a generated field is skipped. -/
theorem embedded_loop_cons_gen (ast_schema : AstDatamodel) (datamodel : Datamodel) (m : Model)
    (f : Field) (rest : List Field) (hg : f.is_generated = true) :
    Validator.embedded_fields_loop ast_schema datamodel m (f :: rest) =
      Validator.embedded_fields_loop ast_schema datamodel m rest := by
  rw [Validator.embedded_fields_loop, hg]
  rfl

/-- Loop step: a non-generated scalar field is skipped. -/
theorem embedded_loop_cons_base (ast_schema : AstDatamodel) (datamodel : Datamodel) (m : Model)
    (f : Field) (rest : List Field) (t : ScalarType)
    (hg : f.is_generated = false) (hft : f.field_type = FieldType.base t) :
    Validator.embedded_fields_loop ast_schema datamodel m (f :: rest) =
      Validator.embedded_fields_loop ast_schema datamodel m rest := by
  rw [Validator.embedded_fields_loop, hg, hft]
  rfl

/-- Loop step: a non-generated enum field is skipped. -/
theorem embedded_loop_cons_enum (ast_schema : AstDatamodel) (datamodel : Datamodel) (m : Model)
    (f : Field) (rest : List Field) (en : String)
    (hg : f.is_generated = false) (hft : f.field_type = FieldType.enum en) :
    Validator.embedded_fields_loop ast_schema datamodel m (f :: rest) =
      Validator.embedded_fields_loop ast_schema datamodel m rest := by
  rw [Validator.embedded_fields_loop, hg, hft]
  rfl

/-- Loop step: a non-generated relation field resolves the peer and companion
and either rejects or recurses. -/
theorem embedded_loop_cons_rel (ast_schema : AstDatamodel) (datamodel : Datamodel) (m : Model)
    (f : Field) (rest : List Field) (rel : RelationInfo)
    (hg : f.is_generated = false) (hft : f.field_type = FieldType.relation rel) :
    Validator.embedded_fields_loop ast_schema datamodel m (f :: rest) =
      (datamodel.find_model rel.«to»).bind (fun related =>
        (related.related_field m.name rel.name f.name).bind (fun companion =>
          if rel.to_fields.isEmpty && !companion.is_generated then
            (ast_schema.find_field m.name f.name).map
              (fun af => Except.error (ValidationError.modelValidationError
                Validator.embeddedBackRelationMessage m.name af.span))
          else
            Validator.embedded_fields_loop ast_schema datamodel m rest)) := by
  rw [Validator.embedded_fields_loop, hg, hft]
  rfl

theorem back_relation_offending_iff (datamodel : Datamodel) (m : Model) (f : Field) :
    back_relation_offending datamodel m f = true ↔ BackRelationOffending datamodel m f := by
  unfold back_relation_offending BackRelationOffending
  cases hg : f.is_generated with
  | true => simp [hg]
  | false =>
    simp only [hg, Bool.not_false, Bool.true_and, true_and]
    rcases hft : f.field_type with t | en | rel
    · simp [hft]
    · simp [hft]
    · cases hfm : datamodel.find_model rel.«to» with
      | none => simp [hft, hfm]
      | some related =>
        cases hcf : related.related_field m.name rel.name f.name with
        | none => simp [hft, hfm, hcf]
        | some companion =>
          cases hcg : companion.is_generated <;>
            simp [hft, hfm, hcf, List.isEmpty_iff, hcg]

/-- A skipped field is not offending. -/
theorem back_relation_offending_false_of_skip (datamodel : Datamodel) (m : Model) (f : Field)
    (h : f.is_generated = true ∨ is_relation_field f = false) :
    back_relation_offending datamodel m f = false := by
  unfold back_relation_offending
  rcases h with h | h
  · rw [h]
    simp
  · unfold is_relation_field at h
    rcases hft : f.field_type with t | en | rel
    · simp
    · simp
    · rw [hft] at h; simp at h

/-- The offending boolean for a non-generated relation field with resolving
lookups is exactly the rejection condition. -/
theorem back_relation_offending_eq_cond (datamodel : Datamodel) (m : Model) (f : Field)
    (rel : RelationInfo) (related : Model) (companion : Field)
    (hg : f.is_generated = false) (hft : f.field_type = FieldType.relation rel)
    (hfm : datamodel.find_model rel.«to» = some related)
    (hcf : related.related_field m.name rel.name f.name = some companion) :
    back_relation_offending datamodel m f = (rel.to_fields.isEmpty && !companion.is_generated) := by
  unfold back_relation_offending
  rw [hg, hft]
  simp only [Bool.not_false, Bool.true_and]
  rw [hfm]
  simp only []
  rw [hcf]

theorem embedded_loop_ok_iff (ast_schema : AstDatamodel) (datamodel : Datamodel) (m : Model) :
    ∀ l : List Field, (∀ f ∈ l, FieldLookupsResolve datamodel m f) →
      (Validator.embedded_fields_loop ast_schema datamodel m l = some (Except.ok ()) ↔
        ∀ f ∈ l, back_relation_offending datamodel m f = false) := by
  intro l
  induction l with
  | nil => intro _; simp [Validator.embedded_fields_loop]
  | cons f rest ih =>
    intro hres
    have ihr := ih (fun g hg => hres g (by simp [hg]))
    have skip_iff : ∀ hskip : back_relation_offending datamodel m f = false,
        ((∀ g ∈ f :: rest, back_relation_offending datamodel m g = false) ↔
          ∀ g ∈ rest, back_relation_offending datamodel m g = false) := by
      intro hskip
      constructor
      · intro h g hm; exact h g (by simp [hm])
      · intro h g hgmem
        rcases List.mem_cons.mp hgmem with rfl | hm
        · exact hskip
        · exact h g hm
    cases hg : f.is_generated with
    | true =>
      rw [embedded_loop_cons_gen ast_schema datamodel m f rest hg, ihr,
        skip_iff (back_relation_offending_false_of_skip datamodel m f (Or.inl hg))]
    | false =>
      rcases hft : f.field_type with t | en | rel
      · rw [embedded_loop_cons_base ast_schema datamodel m f rest t hg hft, ihr,
          skip_iff (back_relation_offending_false_of_skip datamodel m f
            (Or.inr (by unfold is_relation_field; rw [hft])))]
      · rw [embedded_loop_cons_enum ast_schema datamodel m f rest en hg hft, ihr,
          skip_iff (back_relation_offending_false_of_skip datamodel m f
            (Or.inr (by unfold is_relation_field; rw [hft])))]
      · obtain ⟨related, hfm, companion, hcf⟩ := hres f (by simp) hg rel hft
        rw [embedded_loop_cons_rel ast_schema datamodel m f rest rel hg hft, hfm]
        simp only [Option.some_bind]
        rw [hcf]
        simp only [Option.some_bind]
        have hoff := back_relation_offending_eq_cond datamodel m f rel related companion hg hft hfm hcf
        cases hcond : (rel.to_fields.isEmpty && !companion.is_generated) with
        | true =>
          rw [if_pos rfl]
          constructor
          · intro h
            exfalso
            cases haff : ast_schema.find_field m.name f.name with
            | none => rw [haff] at h; simp at h
            | some af => rw [haff] at h; simp at h
          · intro h
            exfalso
            have := h f (by simp)
            rw [hoff, hcond] at this
            exact Bool.noConfusion this
        | false =>
          rw [if_neg (by simp), ihr,
            skip_iff (by rw [hoff, hcond])]

theorem embedded_loop_first_offender (ast_schema : AstDatamodel) (datamodel : Datamodel) (m : Model) :
    ∀ (l : List Field) (f : Field) (af : AstField),
      (∀ g ∈ l, FieldLookupsResolve datamodel m g) →
      l.find? (fun g => back_relation_offending datamodel m g) = some f →
      ast_schema.find_field m.name f.name = some af →
      Validator.embedded_fields_loop ast_schema datamodel m l =
        some (Except.error (ValidationError.modelValidationError
          Validator.embeddedBackRelationMessage m.name af.span)) := by
  intro l
  induction l with
  | nil => intro f af _ hfind; simp [List.find?] at hfind
  | cons g rest ih =>
    intro f af hres hfind haf
    by_cases hpg : back_relation_offending datamodel m g = true
    · rw [@List.find?_cons_of_pos _ (fun g => back_relation_offending datamodel m g) g rest hpg] at hfind
      have hfg : g = f := Option.some.inj hfind
      subst hfg
      have hoff := (back_relation_offending_iff datamodel m g).mp hpg
      obtain ⟨hg, rel, hft, htof, related, companion, hfm, hcf, hcg⟩ := hoff
      rw [embedded_loop_cons_rel ast_schema datamodel m g rest rel hg hft, hfm]
      simp only [Option.some_bind]
      rw [hcf]
      simp only [Option.some_bind]
      rw [if_pos (by simp [htof, hcg]), haf]
      rfl
    · rw [@List.find?_cons_of_neg _ (fun g => back_relation_offending datamodel m g) g rest hpg] at hfind
      have htail := ih f af (fun g' hg' => hres g' (by simp [hg'])) hfind haf
      cases hg : g.is_generated with
      | true => rw [embedded_loop_cons_gen ast_schema datamodel m g rest hg]; exact htail
      | false =>
        rcases hft : g.field_type with t | en | rel
        · rw [embedded_loop_cons_base ast_schema datamodel m g rest t hg hft]; exact htail
        · rw [embedded_loop_cons_enum ast_schema datamodel m g rest en hg hft]; exact htail
        · obtain ⟨related, hfm, companion, hcf⟩ := hres g (by simp) hg rel hft
          have hoff := back_relation_offending_eq_cond datamodel m g rel related companion hg hft hfm hcf
          have hcond : (rel.to_fields.isEmpty && !companion.is_generated) = false := by
            rw [← hoff]
            exact eq_false_of_ne_true hpg
          rw [embedded_loop_cons_rel ast_schema datamodel m g rest rel hg hft, hfm]
          simp only [Option.some_bind]
          rw [hcf]
          simp only [Option.some_bind]
          rw [if_neg (by simp [hcond])]
          exact htail

/-- C5: for a non-embedded model the back-relation check always accepts; for
an embedded model whose lookups resolve, it accepts exactly when no field is a
non-generated back-relation field with a non-generated companion, and
otherwise rejects with the fixed message at the first offending field's span. -/
theorem embedded_back_relation_validation (ast_schema : AstDatamodel)
    (datamodel : Datamodel) (m : Model) :
    (m.is_embedded = false →
      Validator.validate_embedded_types_have_no_back_relation ast_schema datamodel m = some (Except.ok ())) ∧
    (m.is_embedded = true → relation_lookups_resolve datamodel m = true →
      ((Validator.validate_embedded_types_have_no_back_relation ast_schema datamodel m = some (Except.ok ()) ↔
          ∀ f ∈ m.fields, ¬ BackRelationOffending datamodel m f) ∧
        (∀ f af, m.fields.find? (fun g => back_relation_offending datamodel m g) = some f →
          ast_schema.find_field m.name f.name = some af →
          Validator.validate_embedded_types_have_no_back_relation ast_schema datamodel m =
            some (Except.error (ValidationError.modelValidationError
              Validator.embeddedBackRelationMessage m.name af.span))))) := by
  constructor
  · intro h
    unfold Validator.validate_embedded_types_have_no_back_relation
    rw [h]
    rfl
  · intro hemb hres
    have hres' := relation_lookups_resolve_elim datamodel m hres
    constructor
    · unfold Validator.validate_embedded_types_have_no_back_relation
      rw [hemb]
      simp only [if_true]
      rw [embedded_loop_ok_iff ast_schema datamodel m m.fields hres']
      constructor
      · intro h f hf
        rw [← back_relation_offending_iff]
        simp [h f hf]
      · intro h f hf
        have := h f hf
        rw [← back_relation_offending_iff] at this
        simpa using this
    · intro f af hfind haf
      unfold Validator.validate_embedded_types_have_no_back_relation
      rw [hemb]
      simp only [if_true]
      exact embedded_loop_first_offender ast_schema datamodel m m.fields f af hres' hfind haf

/-- Witness for C5: spec scenario 10 — the non-embedded `Parent` passes, the
embedded `Child` is rejected at the `parent` field's span. -/
theorem embedded_back_relation_validation_witness :
    Validator.validate_embedded_types_have_no_back_relation
        (astDmOf embeddedDm) embeddedDm parentModel = some (Except.ok ()) ∧
    Validator.validate_embedded_types_have_no_back_relation
        (astDmOf embeddedDm) embeddedDm childModel =
      some (Except.error (ValidationError.modelValidationError
        Validator.embeddedBackRelationMessage "Child" (Span.mk 110 115))) :=
  ⟨(embedded_back_relation_validation (astDmOf embeddedDm) embeddedDm parentModel).1 rfl,
   ((embedded_back_relation_validation (astDmOf embeddedDm) embeddedDm childModel).2 rfl (by decide)).2
     (mkRelationField "parent" "Parent" "ChildToParent" [])
     (AstField.mk "parent" (Span.mk 110 115)) (by decide) (by decide)⟩

/-! ## C6: accumulation in `validate` -/

theorem models_loop_spec (ast_schema : AstDatamodel) (schema : Datamodel) :
    ∀ (ms : List Model) (es : List ValidationError),
      Validator.models_loop ast_schema schema ms = some es →
      es = ms.flatMap (fun m => (Validator.model_errors ast_schema schema m).getD []) ∧
      ∀ m ∈ ms, (Validator.model_errors ast_schema schema m).isSome := by
  intro ms
  induction ms with
  | nil =>
    intro es h
    rw [Validator.models_loop] at h
    have : es = [] := (Option.some.inj h).symm
    subst this
    simp
  | cons m rest ih =>
    intro es h
    rw [Validator.models_loop] at h
    cases hme : Validator.model_errors ast_schema schema m with
    | none => rw [hme] at h; simp at h
    | some here =>
      rw [hme] at h
      simp only [] at h
      cases hml : Validator.models_loop ast_schema schema rest with
      | none => rw [hml] at h; simp at h
      | some there =>
        rw [hml] at h
        simp only [] at h
        have hes : here ++ there = es := Option.some.inj h
        obtain ⟨hjoin, hall⟩ := ih there hml
        constructor
        · rw [← hes, hjoin]
          simp [hme]
        · intro m' hm'
          rcases List.mem_cons.mp hm' with rfl | hm''
          · rw [hme]; rfl
          · exact hall m' hm''

/-- C6: `validate` runs the four checks on every model, accumulating all
failures into one collection — the concatenation, in model order, of each
model's check errors (the four checks' errors in order) — and returns `Err`
with that collection iff it is non-empty, `Ok` iff every check passed. -/
theorem validate_accumulates (ast_schema : AstDatamodel) (schema : Datamodel)
    (es : List ValidationError)
    (h : Validator.models_loop ast_schema schema schema.models = some es) :
    ((Validator.validate ast_schema schema).1 = some (Except.error es) ↔ es ≠ []) ∧
    ((Validator.validate ast_schema schema).1 = some (Except.ok ()) ↔ es = []) ∧
    es = schema.models.flatMap (fun m => (Validator.model_errors ast_schema schema m).getD []) ∧
    (es = [] ↔ ∀ m ∈ schema.models, Validator.model_errors ast_schema schema m = some []) ∧
    (∀ m ∈ schema.models, ∀ am, ast_schema.find_model m.name = some am →
      ∀ r2 r3 r4, Validator.validate_id_fields_valid ast_schema m = some r2 →
        Validator.validate_relations_not_ambiguous ast_schema m = some r3 →
        Validator.validate_embedded_types_have_no_back_relation ast_schema schema m = some r4 →
        Validator.model_errors ast_schema schema m =
          some (Validator.errList (Validator.validate_model_has_id am m) ++
            Validator.errList r2 ++ Validator.errList r3 ++ Validator.errList r4)) := by
  obtain ⟨hjoin, hall⟩ := models_loop_spec ast_schema schema schema.models es h
  have hv : (Validator.validate ast_schema schema).1 =
      (if es.isEmpty then some (Except.ok ()) else some (Except.error es)) := by
    unfold Validator.validate
    rw [h]
  refine ⟨?_, ?_, hjoin, ?_, ?_⟩
  · rw [hv]
    by_cases he : es = []
    · subst he
      simp
    · rw [if_neg (by simp [he])]
      simp [he]
  · rw [hv]
    by_cases he : es = []
    · subst he
      simp
    · rw [if_neg (by simp [he])]
      simp [he]
  · constructor
    · intro he m hm
      have hsome := hall m hm
      cases hme : Validator.model_errors ast_schema schema m with
      | none => rw [hme] at hsome; simp at hsome
      | some l =>
        have hl : l = [] := by
          have : l ⊆ es := by
            rw [hjoin]
            intro x hx
            rw [List.mem_flatMap]
            exact ⟨m, hm, by rw [hme]; exact hx⟩
          rw [he] at this
          exact List.eq_nil_iff_forall_not_mem.mpr (fun x hx => List.not_mem_nil x (this hx))
        rw [hl]
    · intro hforall
      rw [hjoin]
      rw [List.flatMap_eq_nil_iff]
      intro m hm
      rw [hforall m hm]
      rfl
  · intro m _ am ham r2 r3 r4 h2 h3 h4
    unfold Validator.model_errors
    rw [ham]
    simp only []
    rw [h2]
    simp only []
    rw [h3]
    simp only []
    rw [h4]

/-- Witness for C6: on the scenario-10 schema the collection is the single
embedded back-relation error and `validate` returns it as `Err`; on the
scalar-only schema the collection is empty and `validate` returns `Ok`. -/
theorem validate_accumulates_witness :
    (Validator.validate (astDmOf embeddedDm) embeddedDm).1 =
      some (Except.error [ValidationError.modelValidationError
        Validator.embeddedBackRelationMessage "Child" (Span.mk 110 115)]) ∧
    (Validator.validate (astDmOf { models := [goodModel], enums := [] })
        { models := [goodModel], enums := [] }).1 = some (Except.ok ()) :=
  ⟨(validate_accumulates (astDmOf embeddedDm) embeddedDm
      [ValidationError.modelValidationError
        Validator.embeddedBackRelationMessage "Child" (Span.mk 110 115)]
      (by decide)).1.mpr (by decide),
   (validate_accumulates (astDmOf { models := [goodModel], enums := [] })
      { models := [goodModel], enums := [] } [] (by decide)).2.1.mpr rfl⟩

end Prisma
